import Mathlib

/-!
Shallow embedding of the scoreboard bot's record-keeping core (src/bot.py).

Conventions:
* Timestamps are integers (seconds).  The code's `timedelta(minutes=5)` and
  `timedelta(minutes=10)` windows become the constants 300 and 600.
* Discord user ids are `Nat`; autoincrement primary keys are modelled by
  explicit `next…Id` counters in the store, starting at 1 like SQLite rowids.
* A command's unit of work is modelled by threading a pure store value `DB`
  through the operation; `session.rollback()` (taken on any error, including
  an injected commit failure) returns the original store, `session.commit()`
  returns the staged store.
* Python truthiness tests (`if season:`, `if name:`, `if dupe:`,
  `dupe if dupe else None`, `if game_id:`) are reproduced explicitly.
* `scalar_one_or_none()` is modelled as: empty result set gives `none`, a
  singleton gives the row, and two or more rows give `.error ()`
  (sqlalchemy raises `MultipleResultsFound`).
* Python's stable `list.sort` is modelled with Mathlib's `insertionSort`,
  which is also stable; stable sorts for the same total preorder agree.
-/

/-- Python `str.lower()` (ASCII behaviour). -/
def lowerStr (s : String) : String := String.mk (s.data.map Char.toLower)

/-- Python `str.strip()`: drop leading and trailing whitespace. -/
def stripStr (s : String) : String :=
  String.mk (((s.data.dropWhile Char.isWhitespace).reverse.dropWhile Char.isWhitespace).reverse)

/-- `_norm_code` in bot.py: `"".join(str(s).lower().split())` — lowercase and
remove all whitespace. -/
def normCode (s : String) : String :=
  String.mk ((lowerStr s).data.filter (fun c => !c.isWhitespace))

/-- Helper for `pyTitle`: the Boolean argument records whether the previous
character was cased (a letter). -/
def pyTitleAux : List Char → Bool → List Char
  | [], _ => []
  | c :: rest, prevCased =>
    (if c.isAlpha then (if prevCased then c.toLower else c.toUpper) else c)
      :: pyTitleAux rest c.isAlpha

/-- Python `str.title()` (ASCII behaviour): a letter that follows a non-letter
is uppercased, a letter that follows a letter is lowercased. -/
def pyTitle (s : String) : String := String.mk (pyTitleAux s.data false)

/-- Row of the `users` table. -/
structure User where
  id : Nat
  display_name : String
deriving Repr, DecidableEq

/-- Row of the `games` table. -/
structure Game where
  id : Nat
  name : String
  short_code : String
deriving Repr, DecidableEq

/-- Row of the `seasons` table. -/
structure Season where
  id : Nat
  name : String
  status : String
  game_id : Option Nat
  started_at : Int
  ended_at : Option Int
deriving Repr, DecidableEq

/-- Row of the `matches` table. -/
structure Match where
  id : Nat
  game_id : Nat
  season_id : Option Nat
  reporter_id : Nat
  winner_id : Nat
  loser_id : Nat
  score_w : Option Int
  score_l : Option Int
  played_at : Int
  verified : Bool
  voided : Bool
  dupe_of : Option Nat
deriving Repr, DecidableEq

/-- Row of the `audit_logs` table (`who_id`, `action`). -/
structure AuditLog where
  who_id : Nat
  action : String
deriving Repr, DecidableEq

/-- The persisted store: the five tables plus autoincrement counters. -/
structure DB where
  users : List User
  games : List Game
  seasons : List Season
  matches' : List Match
  audit : List AuditLog
  nextGameId : Nat
  nextSeasonId : Nat
  nextMatchId : Nat
deriving Repr, DecidableEq

/-- A Discord member as seen by a command: the external id and the display
name the bot would resolve for it. -/
structure Member where
  id : Nat
  name : String
deriving Repr, DecidableEq

/-- `is_admin` in bot.py: membership in the configured `ADMIN_IDS` set,
passed in here as an explicit list. -/
def is_admin (admins : List Nat) (uid : Nat) : Bool := admins.contains uid

/-- `session.get(User, uid)`: primary-key lookup in the users table. -/
def getUser (db : DB) (uid : Nat) : Option User :=
  db.users.find? (fun u => u.id == uid)

/-- `upsert_user` in bot.py: create the user row if absent, otherwise update
only the display name (Python: `if name and u.display_name != name`). -/
def upsert_user (db : DB) (mem : Member) : DB :=
  match getUser db mem.id with
  | some u =>
    if mem.name ≠ "" ∧ u.display_name ≠ mem.name then
      { db with users := db.users.map (fun x => if x.id == mem.id then { x with display_name := mem.name } else x) }
    else db
  | none => { db with users := db.users ++ [⟨mem.id, mem.name⟩] }

/-- Python dict construction keyed by member id (first position wins for
placement, last value wins for content), as in
`{reporter.id: reporter, winner.id: winner, loser.id: loser}`. -/
def dictInsert (l : List Member) (m : Member) : List Member :=
  if l.any (fun x => x.id == m.id) then
    l.map (fun x => if x.id == m.id then m else x)
  else l ++ [m]

/-- Upsert every member of the deduplicated dict, in dict order. -/
def upsertAll (db : DB) (ms : List Member) : DB :=
  (ms.foldl dictInsert []).foldl upsert_user db

/-- `get_or_create_game` in bot.py.  Returns the resolved (or freshly
created) game together with the updated store; `none` when the input is
falsy (`if not name_or_code: return None`). -/
def get_or_create_game (db : DB) (nameOrCode : String) : Option Game × DB :=
  if nameOrCode = "" then (none, db)
  else
    let raw := stripStr nameOrCode
    let code := normCode raw
    match db.games.find? (fun g => lowerStr g.short_code == code) with
    | some g => (some g, db)
    | none =>
      match db.games.find? (fun g => lowerStr g.name == lowerStr raw) with
      | some g => (some g, db)
      | none =>
        let g : Game := ⟨db.nextGameId, pyTitle raw, code⟩
        (some g, { db with games := db.games ++ [g], nextGameId := db.nextGameId + 1 })

/-- Game constraint of `find_active_season`:
`or_(Season.game_id == None, Season.game_id == game.id)`. -/
def seasonGameOk (game : Option Game) (s : Season) : Bool :=
  match game with
  | some g => (s.game_id == none) || (s.game_id == some g.id)
  | none => true

/-- `find_active_season` in bot.py.  Both branches end in
`scalar_one_or_none()`, so two or more matching rows raise
(`MultipleResultsFound`), modelled as `.error ()`. -/
def find_active_season (seasons : List Season) (name : Option String) (game : Option Game) :
    Except Unit (Option Season) :=
  if (name.getD "") ≠ "" then
    match seasons.filter (fun s =>
        lowerStr s.name == lowerStr (name.getD "") && s.status == "active" && seasonGameOk game s) with
    | [] => .ok none
    | [s] => .ok (some s)
    | _ => .error ()
  else
    match seasons.filter (fun s => s.status == "active" && seasonGameOk game s) with
    | [] => .ok none
    | [s] => .ok (some s)
    | _ => .error ()

/-- The call pattern `find_active_season(session, season, g) if season else None`
shared by `report` and `matchup_reset` (Python truthiness on `season`). -/
def resolveSeasonArg (seasons : List Season) (season : Option String) (g : Option Game) :
    Except Unit (Option Season) :=
  match season with
  | some sn => if sn = "" then .ok none else find_active_season seasons (some sn) g
  | none => .ok none

/-- The WHERE clause of `dupe_match_exists`: same game, `played_at` within
the trailing window, not voided, and the unordered pair condition. -/
def dupePredicate (gid a b : Nat) (now : Int) (m : Match) : Bool :=
  m.game_id == gid && decide (now - 300 ≤ m.played_at) && m.voided == false &&
    ((m.winner_id == a && m.loser_id == b) || (m.winner_id == b && m.loser_id == a))

/-- `order_by(Match.id.desc()) … .first()`: the row with the largest id. -/
def latestBy : List Match → Option Match
  | [] => none
  | m :: rest =>
    match latestBy rest with
    | none => some m
    | some a => if a.id < m.id then some m else some a

/-- `dupe_match_exists` in bot.py: id of the most recent (largest-id)
non-voided match of the same game and unordered pair within the trailing
5-minute window, if any. -/
def dupe_match_exists (ms : List Match) (now : Int) (gid a b : Nat) : Option Nat :=
  (latestBy (ms.filter (dupePredicate gid a b now))).map Match.id

/-- The score auto-correction trigger of `report`:
`score_w is not None and score_l is not None and score_w < score_l`. -/
def swapB (score_w score_l : Option Int) : Bool :=
  match score_w, score_l with
  | some w, some l => decide (w < l)
  | _, _ => false

/-- The match row `report` inserts, spelled directly over the original
store (upserts touch neither matches nor counters): scores and identities
swapped when the auto-correction fires, `played_at = now`, duplicate id
recorded if a non-voided same-pair match of the game lies in the trailing
window (`dupe if dupe else None`). -/
def reportedMatch (db : DB) (now : Int) (reporter winner loser : Member) (g : Game)
    (score_w score_l : Option Int) (sOpt : Option Season) : Match :=
  let swap := swapB score_w score_l
  let wId := if swap then loser.id else winner.id
  let lId := if swap then winner.id else loser.id
  { id := db.nextMatchId, game_id := g.id, season_id := sOpt.map Season.id,
    reporter_id := reporter.id, winner_id := wId, loser_id := lId,
    score_w := if swap then score_l else score_w,
    score_l := if swap then score_w else score_l,
    played_at := now, verified := true, voided := false,
    dupe_of := match dupe_match_exists db.matches' now g.id wId lId with
      | some d => if d = 0 then none else some d
      | none => none }

/-- Result of the `/report` command. -/
inductive RepRes
  | validationError
  | storeError
  | ok (mid : Nat)
deriving Repr, DecidableEq

/-- The `/report` command (bot.py `report`): validation, game and user
resolution, score auto-correction, season resolution, silent duplicate
detection, insert of match plus audit entry, single commit.  `commitFails`
injects a store failure at commit time (the except branch rolls back). -/
def report (db : DB) (now : Int) (reporter winner loser : Member) (game : String)
    (score_w score_l : Option Int) (season : Option String) (commitFails : Bool) :
    DB × RepRes :=
  if winner.id == loser.id then (db, .validationError)
  else
    match get_or_create_game db game with
    | (none, _) => (db, .storeError)
    | (some g, db1) =>
      let db2 := upsertAll db1 [reporter, winner, loser]
      match getUser db2 reporter.id, getUser db2 winner.id, getUser db2 loser.id with
      | some uR, some uW0, some uL0 =>
        let swap := swapB score_w score_l
        let sw := if swap then score_l else score_w
        let sl := if swap then score_w else score_l
        let uW := if swap then uL0 else uW0
        let uL := if swap then uW0 else uL0
        match resolveSeasonArg db2.seasons season (some g) with
        | .error _ => (db, .storeError)
        | .ok sOpt =>
          let dupe := dupe_match_exists db2.matches' now g.id uW.id uL.id
          let trueDupe : Option Nat := match dupe with
            | some d => if d = 0 then none else some d
            | none => none
          let m : Match :=
            { id := db2.nextMatchId, game_id := g.id, season_id := sOpt.map Season.id,
              reporter_id := uR.id, winner_id := uW.id, loser_id := uL.id,
              score_w := sw, score_l := sl, played_at := now,
              verified := true, voided := false, dupe_of := trueDupe }
          let entry : AuditLog :=
            ⟨uR.id, "report match " ++ uW.display_name ++ " vs " ++ uL.display_name ++
              " in " ++ g.short_code ++
              (match trueDupe with
               | some d => " [dupe_of:" ++ toString d ++ "]"
               | none => "")⟩
          if commitFails then (db, .storeError)
          else
            ({ db2 with
                matches' := db2.matches' ++ [m]
                audit := db2.audit ++ [entry]
                nextMatchId := db2.nextMatchId + 1 }, .ok m.id)
      | _, _, _ => (db, .storeError)

/-- Eligibility filter of `/undo`: not voided, and for a non-admin caller
additionally `reporter_id == caller` and `played_at >= now - 10 minutes`. -/
def undoEligibleB (now : Int) (caller : Nat) (priv : Bool) (m : Match) : Bool :=
  m.voided == false && (priv || (m.reporter_id == caller && decide (now - 600 ≤ m.played_at)))

/-- Result of the `/undo` command. -/
inductive UndoRes
  | nothing
  | storeError
  | voided (mid : Nat)
deriving Repr, DecidableEq

/-- The `/undo` command (bot.py `undo`): pick the largest-id eligible match;
none eligible is a normal "nothing to undo" outcome with no state change;
otherwise mark it voided and append the audit entry in one commit. -/
def undo (db : DB) (now : Int) (admins : List Nat) (caller : Nat) (commitFails : Bool) :
    DB × UndoRes :=
  let priv := is_admin admins caller
  match latestBy (db.matches'.filter (undoEligibleB now caller priv)) with
  | none => (db, .nothing)
  | some m =>
    if commitFails then (db, .storeError)
    else
      ({ db with
          matches' := db.matches'.map (fun x => if x.id == m.id then { x with voided := true } else x)
          audit := db.audit ++ [⟨caller, "undo match " ++ toString m.id⟩] }, .voided m.id)

/-- The WHERE clause of `matchup_reset`: same game, not voided, unordered
pair equals the two given users, and — only when an active season was
resolved — the season id. -/
def resetCond (g : Game) (sOpt : Option Season) (u1 u2 : Nat) (m : Match) : Bool :=
  m.game_id == g.id && m.voided == false &&
    ((m.winner_id == u1 && m.loser_id == u2) || (m.winner_id == u2 && m.loser_id == u1)) &&
    (match sOpt with
     | some s => m.season_id == some s.id
     | none => true)

/-- The season suffix of the `matchup_reset` audit string. -/
def seasonSuffix (sOpt : Option Season) : String :=
  match sOpt with
  | some s => " season " ++ s.name
  | none => ""

/-- Result of the `/matchup_reset` command. -/
inductive ResetRes
  | notAdmin
  | storeError
  | ok (count : Nat)
deriving Repr, DecidableEq

/-- The `/matchup_reset` command (bot.py `matchup_reset`): admin gate, game
resolution (create if needed), optional active-season resolution, void every
match satisfying `resetCond`, one audit entry, one commit. -/
def matchup_reset (db : DB) (now : Int) (admins : List Nat) (caller : Nat)
    (user1 user2 : Member) (game : String) (season : Option String) (commitFails : Bool) :
    DB × ResetRes :=
  if !is_admin admins caller then (db, .notAdmin)
  else
    match get_or_create_game db game with
    | (none, _) => (db, .storeError)
    | (some g, db1) =>
      match resolveSeasonArg db1.seasons season (some g) with
      | .error _ => (db, .storeError)
      | .ok sOpt =>
        let db2 := upsertAll db1 [user1, user2]
        let cond := resetCond g sOpt user1.id user2.id
        let count := (db2.matches'.filter cond).length
        let entry : AuditLog :=
          ⟨caller, "matchup_reset " ++ toString user1.id ++ "<->" ++ toString user2.id ++
            " in " ++ g.short_code ++ seasonSuffix sOpt⟩
        if commitFails then (db, .storeError)
        else
          ({ db2 with
              matches' := db2.matches'.map (fun m => if cond m then { m with voided := true } else m)
              audit := db2.audit ++ [entry] }, .ok count)

/-- The call pattern `get_or_create_game(session, game) if game else None`
shared by `season_start` and `record` (Python truthiness on `game`). -/
def resolveGameArg (db : DB) (game : Option String) : Option Game × DB :=
  match game with
  | some gs => if gs ≠ "" then get_or_create_game db gs else (none, db)
  | none => (none, db)

/-- Result of the `/season_start` command. -/
inductive SeasonRes
  | notAdmin
  | storeError
  | ok (sid : Nat)
deriving Repr, DecidableEq

/-- The `/season_start` command (bot.py `season_start`): admin gate, optional
game resolution, unconditional insert of a new active season (no uniqueness
check of any kind), audit entry, commit. -/
def season_start (db : DB) (now : Int) (admins : List Nat) (caller : Nat)
    (name : String) (game : Option String) (commitFails : Bool) : DB × SeasonRes :=
  if !is_admin admins caller then (db, .notAdmin)
  else
    let gdb := resolveGameArg db game
    let g? := gdb.fst
    let db1 := gdb.snd
    let s : Season :=
      ⟨db1.nextSeasonId, name, "active", g?.map Game.id, now, none⟩
    if commitFails then (db, .storeError)
    else
      ({ db1 with
          seasons := db1.seasons ++ [s]
          audit := db1.audit ++ [⟨caller, "season_start " ++ name⟩]
          nextSeasonId := db1.nextSeasonId + 1 }, .ok s.id)

/-- Result of the `/season_end` command. -/
inductive SeasonEndRes
  | notAdmin
  | notFound
  | storeError
  | ok (sid : Nat)
deriving Repr, DecidableEq

/-- The `/season_end` command (bot.py `season_end`): admin gate, lookup of
the active season by case-insensitive name with `scalar_one_or_none()` (two
or more rows raise, modelled as a store error), "Season not found or
already closed" without mutation when absent, else flip to closed with an
end timestamp, audit entry, commit. -/
def season_end (db : DB) (now : Int) (admins : List Nat) (caller : Nat) (name : String)
    (commitFails : Bool) : DB × SeasonEndRes :=
  if !is_admin admins caller then (db, .notAdmin)
  else
    match db.seasons.filter (fun s =>
        lowerStr s.name == lowerStr name && s.status == "active") with
    | [] => (db, .notFound)
    | [s] =>
      if commitFails then (db, .storeError)
      else
        ({ db with
            seasons := db.seasons.map (fun x =>
              if x.id == s.id then { x with status := "closed", ended_at := some now } else x)
            audit := db.audit ++ [⟨caller, "season_end " ++ name⟩] }, .ok s.id)
    | _ => (db, .storeError)

/-- Result of the `/season_reset` command. -/
inductive SeasonResetRes
  | notAdmin
  | notFound
  | storeError
  | ok (count : Nat)
deriving Repr, DecidableEq

/-- The `/season_reset` command (bot.py `season_reset`): admin gate, lookup
of the season by case-insensitive name, any status, with
`scalar_one_or_none()` (two or more rows raise, modelled as a store error),
"Season not found" without mutation when absent, else hard-delete every
match referencing the season id (the only hard delete), audit entry with
the count, commit. -/
def season_reset (db : DB) (admins : List Nat) (caller : Nat) (name : String)
    (commitFails : Bool) : DB × SeasonResetRes :=
  if !is_admin admins caller then (db, .notAdmin)
  else
    match db.seasons.filter (fun s => lowerStr s.name == lowerStr name) with
    | [] => (db, .notFound)
    | [s] =>
      let count := (db.matches'.filter (fun m => m.season_id == some s.id)).length
      if commitFails then (db, .storeError)
      else
        ({ db with
            matches' := db.matches'.filter (fun m => !(m.season_id == some s.id))
            audit := db.audit ++
              [⟨caller, "season_reset " ++ name ++ " (" ++ toString count ++ " matches)"⟩] },
          .ok count)
    | _ => (db, .storeError)

/-- Scope of all aggregate queries (`record`): `verified == True`,
`voided == False`, plus the optional game filter (`if game_id:`) and the
optional season-name filter, which joins to the seasons table and compares
names case-insensitively (`season_filter_clause`). -/
def in_scope (seasons : List Season) (gameId : Option Nat) (seasonName : Option String)
    (m : Match) : Bool :=
  m.verified == true && m.voided == false &&
    (match gameId with
     | some gid => if gid = 0 then true else m.game_id == gid
     | none => true) &&
    (match seasonName with
     | some sn =>
       if sn = "" then true
       else
         match m.season_id with
         | some sid => seasons.any (fun s => s.id == sid && lowerStr s.name == lowerStr sn)
         | none => false
     | none => true)

/-- Wins of a player over a list of in-scope matches (the `wins` count of
`wl_for` / the grouped `w_map`). -/
def wins (ms : List Match) (uid : Nat) : Nat :=
  (ms.filter (fun m => m.winner_id == uid)).length

/-- Losses of a player over a list of in-scope matches. -/
def losses (ms : List Match) (uid : Nat) : Nat :=
  (ms.filter (fun m => m.loser_id == uid)).length

/-- One leaderboard row `(uid, w, l, winp)`. -/
structure LBRow where
  uid : Nat
  wins : Nat
  losses : Nat
  winPct : ℚ
deriving Repr, DecidableEq

/-- Row construction of the leaderboard branch of `record`:
`winp = (w / (w + l)) * 100 if (w + l) > 0 else 0.0`. -/
def lbRow (ms : List Match) (uid : Nat) : LBRow :=
  let w := wins ms uid
  let l := losses ms uid
  ⟨uid, w, l, if 0 < w + l then ((w : ℚ) / ((w : ℚ) + (l : ℚ))) * 100 else 0⟩

/-- The Boolean preorder behind `rows.sort(key=lambda r: (-r[1], r[2], -r[3]))`:
wins descending, then losses ascending, then win percentage descending. -/
def rowLe (a b : LBRow) : Bool :=
  if a.wins ≠ b.wins then decide (b.wins < a.wins)
  else if a.losses ≠ b.losses then decide (a.losses < b.losses)
  else decide (b.winPct ≤ a.winPct)

/-- `rowLe` as a decidable relation, for `insertionSort`. -/
def rowLeP (a b : LBRow) : Prop := rowLe a b = true

instance : DecidableRel rowLeP := fun a b => by
  unfold rowLeP; infer_instance

/-- `set(w_map.keys()) | set(l_map.keys())`: the player ids appearing as
winner or loser of some in-scope match, without duplicates. -/
def participants (ms : List Match) : List Nat :=
  ((ms.map Match.winner_id) ++ (ms.map Match.loser_id)).dedup

/-- A `List Nat` is a valid enumeration of the Python id set iff it lists
exactly the participants, in some order.  Python leaves the iteration order
of the set unspecified, so the leaderboard is parameterised by it. -/
def validEnum (ms : List Match) (enum : List Nat) : Prop :=
  enum.Perm (participants ms)

instance (ms : List Match) (enum : List Nat) : Decidable (validEnum ms enum) := by
  unfold validEnum; exact List.decidablePerm _ _

/-- The leaderboard branch of `record`: build one row per player id, sort
stably by the key, truncate to the top 10. -/
def leaderboardOf (ms : List Match) (enum : List Nat) : List LBRow :=
  (List.insertionSort rowLeP (enum.map (lbRow ms))).take 10

/-- State effect of the `/record` command (also reached by `/head2head` and
`/leaderboard`, which call `record.callback`): optional
`get_or_create_game`, branch-dependent user upserts, final
`session.commit()`. -/
def record_state (db : DB) (game : Option String) (user vs : Option Member) : DB :=
  let gdb := resolveGameArg db game
  let db1 := gdb.snd
  match user, vs with
  | some u, some v => upsertAll db1 [u, v]
  | some u, none => upsert_user db1 u
  | none, _ => db1

/-- Scoped win count for an unordered-pair scope: matches of the given game
(and season id, when given) that are verified, not voided, and won by `a`
against `b`.  Used to state the after-reset 0-0 record. -/
def pairWins (ms : List Match) (gid : Nat) (sid : Option Nat) (a b : Nat) : Nat :=
  (ms.filter (fun m =>
    m.verified == true && m.voided == false && m.game_id == gid &&
      (match sid with
       | some s => m.season_id == some s
       | none => true) &&
      m.winner_id == a && m.loser_id == b)).length

/-! ### Helper lemmas -/

theorem latestBy_eq_none {l : List Match} : latestBy l = none ↔ l = [] := by
  cases l with
  | nil => simp [latestBy]
  | cons m rest =>
    simp only [latestBy]
    constructor
    · intro h
      cases hr : latestBy rest <;> simp [hr] at h <;> split at h <;> simp_all
    · intro h; cases h

theorem latestBy_mem {l : List Match} {m : Match} (h : latestBy l = some m) : m ∈ l := by
  induction l with
  | nil => simp [latestBy] at h
  | cons a rest ih =>
    simp only [latestBy] at h
    cases hr : latestBy rest with
    | none => rw [hr] at h; simp at h; simp [h]
    | some b =>
      rw [hr] at h
      simp at h
      split at h
      · simp at h; simp [h]
      · simp at h; right; exact ih (h ▸ hr)

theorem latestBy_max {l : List Match} {m : Match} (h : latestBy l = some m) :
    ∀ x ∈ l, x.id ≤ m.id := by
  induction l generalizing m with
  | nil => simp [latestBy] at h
  | cons a rest ih =>
    simp only [latestBy] at h
    cases hr : latestBy rest with
    | none =>
      rw [hr] at h
      have h2 : some a = some m := h
      injection h2 with h3
      have h4 : a.id = m.id := congrArg Match.id h3
      have he : rest = [] := latestBy_eq_none.mp hr
      subst he
      intro x hx
      simp at hx
      subst hx
      omega
    | some b =>
      rw [hr] at h
      have h2 : (if b.id < a.id then some a else some b) = some m := h
      by_cases hc : b.id < a.id
      · rw [if_pos hc] at h2
        injection h2 with h3
        have h4 : a.id = m.id := congrArg Match.id h3
        intro x hx
        rcases List.mem_cons.mp hx with hx | hx
        · subst hx; omega
        · have := ih hr x hx; omega
      · rw [if_neg hc] at h2
        injection h2 with h3
        have h4 : b.id = m.id := congrArg Match.id h3
        intro x hx
        rcases List.mem_cons.mp hx with hx | hx
        · subst hx; omega
        · have := ih hr x hx; omega

theorem latestBy_max_val {l : List Match} {m : Match} (hm : m ∈ l)
    (hmax : ∀ x ∈ l, x.id ≤ m.id) : ∃ m', latestBy l = some m' ∧ m'.id = m.id := by
  cases hl : latestBy l with
  | none => rw [latestBy_eq_none.mp hl] at hm; simp at hm
  | some b =>
    refine ⟨b, rfl, ?_⟩
    have h1 := latestBy_max hl m hm
    have h2 := hmax b (latestBy_mem hl)
    omega

/-- `upsert_user` touches only the users table. -/
theorem upsert_user_frame (db : DB) (mem : Member) :
    (upsert_user db mem).games = db.games ∧ (upsert_user db mem).seasons = db.seasons ∧
    (upsert_user db mem).matches' = db.matches' ∧ (upsert_user db mem).audit = db.audit ∧
    (upsert_user db mem).nextGameId = db.nextGameId ∧
    (upsert_user db mem).nextSeasonId = db.nextSeasonId ∧
    (upsert_user db mem).nextMatchId = db.nextMatchId := by
  unfold upsert_user
  cases getUser db mem.id <;> simp <;> split <;> simp

/-- Folding `upsert_user` over a list touches only the users table. -/
theorem foldl_upsert_frame (l : List Member) (db : DB) :
    (l.foldl upsert_user db).games = db.games ∧ (l.foldl upsert_user db).seasons = db.seasons ∧
    (l.foldl upsert_user db).matches' = db.matches' ∧ (l.foldl upsert_user db).audit = db.audit ∧
    (l.foldl upsert_user db).nextGameId = db.nextGameId ∧
    (l.foldl upsert_user db).nextSeasonId = db.nextSeasonId ∧
    (l.foldl upsert_user db).nextMatchId = db.nextMatchId := by
  induction l generalizing db with
  | nil => simp
  | cons a rest ih =>
    simp only [List.foldl_cons]
    have h1 := upsert_user_frame db a
    have h2 := ih (upsert_user db a)
    exact ⟨h2.1.trans h1.1, (h2.2.1).trans h1.2.1, (h2.2.2.1).trans h1.2.2.1,
      (h2.2.2.2.1).trans h1.2.2.2.1, (h2.2.2.2.2.1).trans h1.2.2.2.2.1,
      (h2.2.2.2.2.2.1).trans h1.2.2.2.2.2.1, (h2.2.2.2.2.2.2).trans h1.2.2.2.2.2.2⟩

/-- `upsertAll` touches only the users table. -/
theorem upsertAll_frame (db : DB) (l : List Member) :
    (upsertAll db l).games = db.games ∧ (upsertAll db l).seasons = db.seasons ∧
    (upsertAll db l).matches' = db.matches' ∧ (upsertAll db l).audit = db.audit ∧
    (upsertAll db l).nextGameId = db.nextGameId ∧
    (upsertAll db l).nextSeasonId = db.nextSeasonId ∧
    (upsertAll db l).nextMatchId = db.nextMatchId :=
  foldl_upsert_frame _ db

/-- `get_or_create_game` touches only the games table and its counter. -/
theorem get_or_create_game_frame (db : DB) (s : String) :
    (get_or_create_game db s).2.users = db.users ∧
    (get_or_create_game db s).2.seasons = db.seasons ∧
    (get_or_create_game db s).2.matches' = db.matches' ∧
    (get_or_create_game db s).2.audit = db.audit ∧
    (get_or_create_game db s).2.nextSeasonId = db.nextSeasonId ∧
    (get_or_create_game db s).2.nextMatchId = db.nextMatchId := by
  unfold get_or_create_game
  split
  · simp
  · dsimp only
    split
    · simp
    · split <;> simp

/-- `resolveGameArg` touches only the games table and its counter. -/
theorem resolveGameArg_frame (db : DB) (game : Option String) :
    (resolveGameArg db game).2.users = db.users ∧
    (resolveGameArg db game).2.seasons = db.seasons ∧
    (resolveGameArg db game).2.matches' = db.matches' ∧
    (resolveGameArg db game).2.audit = db.audit ∧
    (resolveGameArg db game).2.nextSeasonId = db.nextSeasonId ∧
    (resolveGameArg db game).2.nextMatchId = db.nextMatchId := by
  unfold resolveGameArg
  cases game with
  | none => exact ⟨rfl, rfl, rfl, rfl, rfl, rfl⟩
  | some gs =>
    dsimp only
    by_cases h : gs = ""
    · rw [if_neg (by simp [h])]
      exact ⟨rfl, rfl, rfl, rfl, rfl, rfl⟩
    · rw [if_pos h]
      exact get_or_create_game_frame db gs

/-- After `upsert_user db mem`, the user id `mem.id` is present. -/
theorem getUser_upsert_self (db : DB) (mem : Member) :
    (getUser (upsert_user db mem) mem.id).isSome := by
  apply List.find?_isSome.mpr
  unfold upsert_user
  cases hu : getUser db mem.id with
  | some u =>
    have hu' : List.find? (fun x => x.id == mem.id) db.users = some u := hu
    have hmem : u ∈ db.users := List.mem_of_find?_eq_some hu'
    have hid0 := List.find?_some hu'
    have hid : (u.id == mem.id) = true := hid0
    dsimp only
    by_cases hc : mem.name ≠ "" ∧ u.display_name ≠ mem.name
    · rw [if_pos hc]
      refine ⟨{ u with display_name := mem.name }, ?_, hid⟩
      exact List.mem_map.mpr ⟨u, hmem, by simp [hid]⟩
    · rw [if_neg hc]
      exact ⟨u, hmem, hid⟩
  | none =>
    exact ⟨⟨mem.id, mem.name⟩, List.mem_append_right _ (by simp), by simp⟩

/-- `upsert_user` preserves presence of any user id. -/
theorem getUser_upsert_mono (db : DB) (mem : Member) (uid : Nat)
    (h : (getUser db uid).isSome) : (getUser (upsert_user db mem) uid).isSome := by
  obtain ⟨u, hu, hid⟩ := List.find?_isSome.mp h
  apply List.find?_isSome.mpr
  unfold upsert_user
  cases hx : getUser db mem.id with
  | some w =>
    dsimp only
    by_cases hc : mem.name ≠ "" ∧ w.display_name ≠ mem.name
    · rw [if_pos hc]
      refine ⟨if u.id == mem.id then { u with display_name := mem.name } else u, ?_, ?_⟩
      · exact List.mem_map.mpr ⟨u, hu, rfl⟩
      · by_cases hcc : (u.id == mem.id) = true
        · rw [if_pos hcc]; exact hid
        · rw [if_neg hcc]; exact hid
    · rw [if_neg hc]
      exact ⟨u, hu, hid⟩
  | none => exact ⟨u, List.mem_append_left _ hu, hid⟩

/-- Folding `upsert_user` preserves presence. -/
theorem foldl_upsert_mono (l : List Member) (db : DB) (uid : Nat)
    (h : (getUser db uid).isSome) : (getUser (l.foldl upsert_user db) uid).isSome := by
  induction l generalizing db with
  | nil => exact h
  | cons a rest ih => exact ih _ (getUser_upsert_mono db a uid h)

/-- Every id in the member list is present after folding `upsert_user`. -/
theorem foldl_upsert_present (l : List Member) (mem : Member) (h : mem ∈ l) :
    ∀ db : DB, (getUser (l.foldl upsert_user db) mem.id).isSome := by
  induction l with
  | nil => simp at h
  | cons a rest ih =>
    intro db
    rcases List.mem_cons.mp h with h1 | h1
    · subst h1
      exact foldl_upsert_mono rest _ mem.id (getUser_upsert_self db mem)
    · exact ih h1 (upsert_user db a)

/-- The ids of the dict built by `dictInsert` are those of the inputs. -/
theorem mem_dictInsert_ids (l : List Member) (m : Member) (a : Nat) :
    a ∈ (dictInsert l m).map Member.id ↔ a ∈ l.map Member.id ∨ a = m.id := by
  unfold dictInsert
  split
  · next hany =>
    have : (l.map (fun x => if x.id == m.id then m else x)).map Member.id = l.map Member.id := by
      rw [List.map_map]
      apply List.map_congr_left
      intro x _
      by_cases hc : x.id == m.id
      · simp only [Function.comp_apply, if_pos hc]
        simpa using (beq_iff_eq.mp hc).symm
      · simp only [Function.comp_apply, if_neg hc]
    rw [this]
    constructor
    · exact fun hx => Or.inl hx
    · rintro (hx | hx)
      · exact hx
      · subst hx
        rcases List.any_eq_true.mp hany with ⟨x, hx, hxe⟩
        exact List.mem_map.mpr ⟨x, hx, beq_iff_eq.mp hxe⟩
  · simp

/-- Every input member's id ends up in the dict. -/
theorem mem_dict_ids (l : List Member) (mem : Member) (h : mem ∈ l) :
    mem.id ∈ (l.foldl dictInsert []).map Member.id := by
  have main : ∀ (l : List Member) (acc : List Member) (a : Nat),
      a ∈ (l.foldl dictInsert acc).map Member.id ↔
        a ∈ acc.map Member.id ∨ a ∈ l.map Member.id := by
    intro l
    induction l with
    | nil => simp
    | cons b rest ih =>
      intro acc a
      simp only [List.foldl_cons]
      rw [ih]
      rw [mem_dictInsert_ids]
      simp only [List.map_cons, List.mem_cons]
      tauto
  exact (main l [] mem.id).mpr (Or.inr (List.mem_map.mpr ⟨mem, h, rfl⟩))

/-- Every member passed to `upsertAll` is present afterwards. -/
theorem getUser_upsertAll (db : DB) (l : List Member) (mem : Member) (h : mem ∈ l) :
    (getUser (upsertAll db l) mem.id).isSome := by
  unfold upsertAll
  have hid := mem_dict_ids l mem h
  rcases List.mem_map.mp hid with ⟨x, hx, hxe⟩
  rw [← hxe]
  exact foldl_upsert_present _ x hx db

/-- A successful `getUser` returns a row with the looked-up id. -/
theorem getUser_id {db : DB} {uid : Nat} {u : User} (h : getUser db uid = some u) :
    u.id = uid := by
  have := List.find?_some h
  exact beq_iff_eq.mp this

/-- The sort key of the leaderboard, spelled as a proposition: wins
descending, then losses ascending, then win percentage descending. -/
def rowOrdered (a b : LBRow) : Prop :=
  b.wins < a.wins ∨
    (a.wins = b.wins ∧ (a.losses < b.losses ∨ (a.losses = b.losses ∧ b.winPct ≤ a.winPct)))

theorem rowLe_iff (a b : LBRow) : rowLeP a b ↔ rowOrdered a b := by
  unfold rowLeP rowLe rowOrdered
  by_cases h1 : a.wins = b.wins <;> by_cases h2 : a.losses = b.losses <;>
    simp [h1, h2] <;> omega

instance : IsTotal LBRow rowLeP where
  total a b := by
    rw [rowLe_iff, rowLe_iff]
    unfold rowOrdered
    rcases Nat.lt_trichotomy a.wins b.wins with h | h | h
    · right; left; exact h
    · rcases Nat.lt_trichotomy a.losses b.losses with g | g | g
      · left; right; exact ⟨h, Or.inl g⟩
      · rcases le_total b.winPct a.winPct with q | q
        · left; right; exact ⟨h, Or.inr ⟨g, q⟩⟩
        · right; right; exact ⟨h.symm, Or.inr ⟨g.symm, q⟩⟩
      · right; right; exact ⟨h.symm, Or.inl g⟩
    · left; left; exact h

instance : IsTrans LBRow rowLeP where
  trans a b c hab hbc := by
    rw [rowLe_iff] at hab hbc ⊢
    unfold rowOrdered at hab hbc ⊢
    rcases hab with h | ⟨h1, hh⟩
    · rcases hbc with g | ⟨g1, _⟩
      · left; omega
      · left; omega
    · rcases hbc with g | ⟨g1, gg⟩
      · left; omega
      · right
        refine ⟨by omega, ?_⟩
        rcases hh with h2 | ⟨h2, h3⟩
        · rcases gg with g2 | ⟨g2, g3⟩ <;> left <;> omega
        · rcases gg with g2 | ⟨g2, g3⟩
          · left; omega
          · right; exact ⟨by omega, le_trans g3 h3⟩

/-- A participant id is one with at least one win or loss in scope. -/
theorem mem_participants (ms : List Match) (uid : Nat) :
    uid ∈ participants ms ↔ 0 < wins ms uid ∨ 0 < losses ms uid := by
  unfold participants wins losses
  rw [List.mem_dedup, List.mem_append]
  rw [List.length_pos_iff_exists_mem, List.length_pos_iff_exists_mem]
  simp only [List.mem_map, List.mem_filter, beq_iff_eq]

theorem lbRow_uid (ms : List Match) (u : Nat) : (lbRow ms u).uid = u := rfl

theorem lbRow_injective (ms : List Match) : Function.Injective (lbRow ms) := by
  intro a b h
  have := congrArg LBRow.uid h
  simpa [lbRow_uid] using this

/-- On rows that tie on wins and losses, `rowLe` holds (the win-percentage
key is a function of wins and losses for rows built by `lbRow`). -/
theorem rowLe_of_key_eq {a b : LBRow} (h1 : a.wins = b.wins) (h2 : a.losses = b.losses)
    (h3 : a.winPct = b.winPct) : rowLeP a b := by
  rw [rowLe_iff]
  right
  exact ⟨h1, Or.inr ⟨h2, le_of_eq h3.symm⟩⟩

/-! ### Claim theorems -/

/-- Claim C5: for every match set in scope and every valid enumeration of
the player-id set, the leaderboard's pre-truncation rows contain exactly the
players with at least one win or loss in scope; each row carries that
player's win and loss counts and the win percentage
wins / (wins + losses) × 100 (0 when wins + losses = 0); the final list is
sorted by wins descending, then losses ascending, then win percentage
descending, and is the 10-row truncation of the sorted rows. -/
theorem leaderboard_correct (ms : List Match) (enum : List Nat) (h : validEnum ms enum) :
    (∀ uid : Nat,
        (∃ r ∈ List.insertionSort rowLeP (enum.map (lbRow ms)), r.uid = uid) ↔
          (0 < wins ms uid ∨ 0 < losses ms uid)) ∧
    (∀ r ∈ leaderboardOf ms enum,
        r.wins = wins ms r.uid ∧ r.losses = losses ms r.uid ∧
        r.winPct = (if 0 < r.wins + r.losses then
            ((r.wins : ℚ) / ((r.wins : ℚ) + (r.losses : ℚ))) * 100 else 0)) ∧
    List.Pairwise rowOrdered (leaderboardOf ms enum) ∧
    leaderboardOf ms enum = (List.insertionSort rowLeP (enum.map (lbRow ms))).take 10 ∧
    (leaderboardOf ms enum).length ≤ 10 := by
  have hperm : (List.insertionSort rowLeP (enum.map (lbRow ms))).Perm (enum.map (lbRow ms)) :=
    List.perm_insertionSort _ _
  have hrow : ∀ r ∈ leaderboardOf ms enum, ∃ u ∈ enum, r = lbRow ms u := by
    intro r hr
    have hr1 : r ∈ List.insertionSort rowLeP (enum.map (lbRow ms)) :=
      List.mem_of_mem_take hr
    have hr2 : r ∈ enum.map (lbRow ms) := hperm.mem_iff.mp hr1
    rcases List.mem_map.mp hr2 with ⟨u, hu, he⟩
    exact ⟨u, hu, he.symm⟩
  refine ⟨?_, ?_, ?_, rfl, ?_⟩
  · intro uid
    constructor
    · rintro ⟨r, hr, he⟩
      have hr2 : r ∈ enum.map (lbRow ms) := hperm.mem_iff.mp hr
      rcases List.mem_map.mp hr2 with ⟨u, hu, hru⟩
      have : u = uid := by rw [← he, ← hru, lbRow_uid]
      subst this
      exact (mem_participants ms u).mp (h.mem_iff.mp hu)
    · intro hwl
      have hu : uid ∈ enum := h.mem_iff.mpr ((mem_participants ms uid).mpr hwl)
      exact ⟨lbRow ms uid, hperm.mem_iff.mpr (List.mem_map.mpr ⟨uid, hu, rfl⟩), lbRow_uid ms uid⟩
  · intro r hr
    rcases hrow r hr with ⟨u, _, he⟩
    subst he
    exact ⟨rfl, rfl, rfl⟩
  · have hs : List.Pairwise rowLeP (List.insertionSort rowLeP (enum.map (lbRow ms))) :=
      List.sorted_insertionSort rowLeP (enum.map (lbRow ms))
    have ht : List.Pairwise rowLeP (leaderboardOf ms enum) :=
      List.Pairwise.sublist (List.take_sublist _ _) hs
    exact ht.imp (fun hab => (rowLe_iff _ _).mp hab)
  · rw [leaderboardOf]
    rw [List.length_take]
    exact min_le_left _ _

/-- Concrete store slice for the leaderboard theorems: player 1 beat
player 2 once in game 1. -/
def msW : List Match := [⟨1, 1, none, 3, 1, 2, none, none, 0, true, false, none⟩]

/-- Witness for C5 at the concrete one-match scope. -/
theorem leaderboard_correct_witness :
    (∀ uid : Nat,
        (∃ r ∈ List.insertionSort rowLeP ([1, 2].map (lbRow msW)), r.uid = uid) ↔
          (0 < wins msW uid ∨ 0 < losses msW uid)) ∧
    (∀ r ∈ leaderboardOf msW [1, 2],
        r.wins = wins msW r.uid ∧ r.losses = losses msW r.uid ∧
        r.winPct = (if 0 < r.wins + r.losses then
            ((r.wins : ℚ) / ((r.wins : ℚ) + (r.losses : ℚ))) * 100 else 0)) ∧
    List.Pairwise rowOrdered (leaderboardOf msW [1, 2]) ∧
    leaderboardOf msW [1, 2] = (List.insertionSort rowLeP ([1, 2].map (lbRow msW))).take 10 ∧
    (leaderboardOf msW [1, 2]).length ≤ 10 :=
  leaderboard_correct msW [1, 2] (by decide)

/-- Concrete store slice where players 1 and 2 tie completely: each beat
the other once in game 1. -/
def ms6 : List Match := [⟨1, 1, none, 1, 1, 2, none, none, 0, true, false, none⟩,
  ⟨2, 1, none, 2, 2, 1, none, none, 0, true, false, none⟩]

/-- Claim C6 counterexample: both enumerations are valid orders of the same
in-scope player-id set (Python's `set` iteration order is unspecified), yet
the two leaderboard evaluations differ: players tying on wins, losses and
win percentage keep their enumeration order under the stable sort, so the
ordering is not determined by the match set alone. -/
theorem leaderboard_order_input_dependent :
    validEnum ms6 [1, 2] ∧ validEnum ms6 [2, 1] ∧
    (leaderboardOf ms6 [1, 2]).map LBRow.uid = [1, 2] ∧
    (leaderboardOf ms6 [2, 1]).map LBRow.uid = [2, 1] ∧
    leaderboardOf ms6 [1, 2] ≠ leaderboardOf ms6 [2, 1] := by
  have h1 : (leaderboardOf ms6 [1, 2]).map LBRow.uid = [1, 2] := by
    simp [leaderboardOf, List.insertionSort, List.orderedInsert, lbRow, wins, losses,
      rowLeP, rowLe, ms6, List.filter]
  have h2 : (leaderboardOf ms6 [2, 1]).map LBRow.uid = [2, 1] := by
    simp [leaderboardOf, List.insertionSort, List.orderedInsert, lbRow, wins, losses,
      rowLeP, rowLe, ms6, List.filter]
  refine ⟨by decide, by decide, h1, h2, ?_⟩
  intro he
  rw [he, h2] at h1
  simp at h1

/-- Strict version of the leaderboard sort key: the preorder holds and the
(wins, losses) keys differ. -/
def rowLT (a b : LBRow) : Prop :=
  rowLeP a b ∧ ¬ (a.wins = b.wins ∧ a.losses = b.losses)

theorem rowLT_asymm {a b : LBRow} (hab : rowLT a b) (hba : rowLT b a) : False := by
  obtain ⟨hab1, hab2⟩ := hab
  obtain ⟨hba1, _⟩ := hba
  rw [rowLe_iff] at hab1 hba1
  unfold rowOrdered at hab1 hba1
  rcases hab1 with h | ⟨h1, h | ⟨h2, _⟩⟩ <;> rcases hba1 with g | ⟨g1, g | ⟨g2, _⟩⟩ <;>
    first
      | omega
      | exact hab2 ⟨by omega, by omega⟩

/-- Claim C6 (amended): the leaderboard is independent of the enumeration
order of the player-id set provided no two distinct in-scope players tie on
both wins and losses; with such a complete tie the relative order of the
tied players follows the unspecified set-iteration order (see the
counterexample). -/
theorem leaderboard_deterministic_amended (ms : List Match) (e1 e2 : List Nat)
    (h1 : validEnum ms e1) (h2 : validEnum ms e2)
    (hd : ∀ u ∈ participants ms, ∀ v ∈ participants ms,
        wins ms u = wins ms v → losses ms u = losses ms v → u = v) :
    leaderboardOf ms e1 = leaderboardOf ms e2 := by
  suffices hsuff : List.insertionSort rowLeP (e1.map (lbRow ms)) =
      List.insertionSort rowLeP (e2.map (lbRow ms)) by
    rw [leaderboardOf, leaderboardOf, hsuff]
  have hperm12 : e1.Perm e2 := h1.trans h2.symm
  have hp : (List.insertionSort rowLeP (e1.map (lbRow ms))).Perm
      (List.insertionSort rowLeP (e2.map (lbRow ms))) :=
    ((List.perm_insertionSort _ _).trans (hperm12.map _)).trans
      (List.perm_insertionSort _ _).symm
  have key : ∀ e : List Nat, validEnum ms e →
      List.Pairwise rowLT (List.insertionSort rowLeP (e.map (lbRow ms))) := by
    intro e he
    have hs : List.Pairwise rowLeP (List.insertionSort rowLeP (e.map (lbRow ms))) :=
      List.sorted_insertionSort _ _
    have hnd : e.Nodup := List.Perm.nodup he.symm (List.nodup_dedup _)
    have hmap : (e.map (lbRow ms)).Pairwise (fun a b => a.uid ≠ b.uid) := by
      rw [List.pairwise_map]
      exact hnd.imp (fun hne he2 => hne (by simpa [lbRow_uid] using he2))
    have huid : (List.insertionSort rowLeP (e.map (lbRow ms))).Pairwise
        (fun a b => a.uid ≠ b.uid) := by
      exact (List.Perm.pairwise_iff (fun hne => Ne.symm hne)
        (List.perm_insertionSort rowLeP (e.map (lbRow ms)))).mpr hmap
    have hmem : ∀ r ∈ List.insertionSort rowLeP (e.map (lbRow ms)), ∃ u ∈ participants ms, r = lbRow ms u := by
      intro r hr
      have hr2 : r ∈ e.map (lbRow ms) :=
        (List.perm_insertionSort rowLeP (e.map (lbRow ms))).mem_iff.mp hr
      rcases List.mem_map.mp hr2 with ⟨u, hu, hru⟩
      exact ⟨u, he.mem_iff.mp hu, hru.symm⟩
    have hkey : (List.insertionSort rowLeP (e.map (lbRow ms))).Pairwise
        (fun a b => ¬ (a.wins = b.wins ∧ a.losses = b.losses)) := by
      refine huid.imp_of_mem ?_
      intro a b ha hb hne hk
      rcases hmem a ha with ⟨u, hu, hau⟩
      rcases hmem b hb with ⟨v, hv, hbv⟩
      apply hne
      have huv : u = v := by
        apply hd u hu v hv
        · rw [hau, hbv] at hk; exact hk.1
        · rw [hau, hbv] at hk; exact hk.2
      rw [hau, hbv, huv]
    exact (hs.and hkey).imp (fun hc => hc)
  haveI : IsAntisymm LBRow rowLT := ⟨fun a b hab hba => (rowLT_asymm hab hba).elim⟩
  exact List.eq_of_perm_of_sorted hp (key e1 h1) (key e2 h2)

/-- Witness for the amended C6: with distinct (wins, losses) keys the two
enumeration orders give the same leaderboard. -/
theorem leaderboard_deterministic_amended_witness :
    leaderboardOf msW [1, 2] = leaderboardOf msW [2, 1] :=
  leaderboard_deterministic_amended msW [1, 2] [2, 1] (by decide) (by decide) (by decide)

/-- Claim C7 evidence: the no-name branch of `find_active_season` ends in
`scalar_one_or_none()`, so with two active seasons it raises
`MultipleResultsFound` instead of returning the most recently started one
(the dead `order_by(started_at.desc())` shows the intended selection); with
a single active season it does return it. -/
theorem find_active_season_multiple_raises :
    find_active_season [⟨1, "S1", "active", none, 0, none⟩, ⟨2, "S2", "active", none, 5, none⟩]
        none none = .error () ∧
    find_active_season [⟨2, "S2", "active", none, 5, none⟩] none none =
      .ok (some ⟨2, "S2", "active", none, 5, none⟩) :=
  ⟨rfl, rfl⟩

/-- On the success path, `report` commits exactly the staged user upserts,
the new match row `reportedMatch`, and one audit entry, and returns the new
match id. -/
theorem report_ok_spec (db : DB) (now : Int) (reporter winner loser : Member) (game : String)
    (score_w score_l : Option Int) (season : Option String)
    (g : Game) (db1 : DB) (sOpt : Option Season)
    (hne : (winner.id == loser.id) = false)
    (hg : get_or_create_game db game = (some g, db1))
    (hs : resolveSeasonArg db.seasons season (some g) = .ok sOpt) :
    ∃ entry : AuditLog,
      report db now reporter winner loser game score_w score_l season false =
        ({ upsertAll db1 [reporter, winner, loser] with
            matches' := db.matches' ++
              [reportedMatch db now reporter winner loser g score_w score_l sOpt]
            audit := db.audit ++ [entry]
            nextMatchId := db.nextMatchId + 1 }, .ok db.nextMatchId) := by
  have hf1 := get_or_create_game_frame db game
  rw [hg] at hf1
  have hf2 := upsertAll_frame db1 [reporter, winner, loser]
  set db2 := upsertAll db1 [reporter, winner, loser] with hdb2
  have hmm : db2.matches' = db.matches' := hf2.2.2.1.trans hf1.2.2.1
  have hss : db2.seasons = db.seasons := hf2.2.1.trans hf1.2.1
  have haa : db2.audit = db.audit := hf2.2.2.2.1.trans hf1.2.2.2.1
  have hnn : db2.nextMatchId = db.nextMatchId := hf2.2.2.2.2.2.2.trans hf1.2.2.2.2.2
  obtain ⟨uR, huR⟩ := Option.isSome_iff_exists.mp
    (getUser_upsertAll db1 [reporter, winner, loser] reporter (by simp))
  obtain ⟨uW0, huW⟩ := Option.isSome_iff_exists.mp
    (getUser_upsertAll db1 [reporter, winner, loser] winner (by simp))
  obtain ⟨uL0, huL⟩ := Option.isSome_iff_exists.mp
    (getUser_upsertAll db1 [reporter, winner, loser] loser (by simp))
  unfold report
  rw [if_neg (by simp [hne])]
  rw [hg]
  dsimp only
  rw [← hdb2, huR, huW, huL]
  dsimp only
  rw [hss, hs]
  dsimp only
  rw [if_neg (by simp : ¬ (false = true))]
  unfold reportedMatch
  dsimp only
  cases hsw : swapB score_w score_l <;>
    simp only [hsw, Bool.false_eq_true, if_false, if_true, ite_true, ite_false,
      getUser_id huR, getUser_id huW, getUser_id huL, hmm, haa, hnn] <;>
    exact ⟨_, rfl⟩

/-- The unordered-pair condition of the duplicate search is symmetric. -/
theorem dupePredicate_symm (gid a b : Nat) (now : Int) (m : Match) :
    dupePredicate gid b a now m = dupePredicate gid a b now m := by
  unfold dupePredicate
  rw [Bool.or_comm]

/-- Claim C2: when both scores are supplied with scoreW < scoreL, the
persisted match swaps winner/loser identity and the scores, so the recorded
winner carries the higher score; otherwise identities and scores are stored
as reported.  The insert is the single appended match row. -/
theorem report_score_autocorrect (db : DB) (now : Int) (reporter winner loser : Member)
    (game : String) (score_w score_l : Option Int) (season : Option String)
    (g : Game) (db1 : DB) (sOpt : Option Season)
    (hne : (winner.id == loser.id) = false)
    (hg : get_or_create_game db game = (some g, db1))
    (hs : resolveSeasonArg db.seasons season (some g) = .ok sOpt) :
    ∃ m : Match,
      (report db now reporter winner loser game score_w score_l season false).1.matches'
          = db.matches' ++ [m] ∧
      (report db now reporter winner loser game score_w score_l season false).2 = .ok m.id ∧
      ((∃ a b : Int, score_w = some a ∧ score_l = some b ∧ a < b) →
        m.winner_id = loser.id ∧ m.loser_id = winner.id ∧
        m.score_w = score_l ∧ m.score_l = score_w) ∧
      ((∀ a b : Int, score_w = some a → score_l = some b → b ≤ a) →
        m.winner_id = winner.id ∧ m.loser_id = loser.id ∧
        m.score_w = score_w ∧ m.score_l = score_l) := by
  obtain ⟨entry, heq⟩ := report_ok_spec db now reporter winner loser game score_w score_l
    season g db1 sOpt hne hg hs
  refine ⟨reportedMatch db now reporter winner loser g score_w score_l sOpt, ?_, ?_, ?_, ?_⟩
  · rw [heq]
  · rw [heq]; rfl
  · rintro ⟨a, b, ha, hb, hab⟩
    subst ha hb
    have hsw : swapB (some a) (some b) = true := by simp [swapB, hab]
    unfold reportedMatch
    simp [hsw]
  · intro hle
    have hsw : swapB score_w score_l = false := by
      unfold swapB
      cases score_w with
      | none => rfl
      | some a => cases score_l with
        | none => rfl
        | some b =>
          have := hle a b rfl rfl
          simp
          omega
    unfold reportedMatch
    simp [hsw]

/-- Claim C1: the inserted match records as `dupe_of` the id of the most
recent (largest-id) non-voided match of the same game whose unordered pair
equals the report's pair and whose `played_at` lies in the trailing
5-minute window; `dupe_of` is null when no such match exists, and the
insert happens unchanged either way. -/
theorem report_dupe_detection (db : DB) (now : Int) (reporter winner loser : Member)
    (game : String) (score_w score_l : Option Int) (season : Option String)
    (g : Game) (db1 : DB) (sOpt : Option Season)
    (hne : (winner.id == loser.id) = false)
    (hg : get_or_create_game db game = (some g, db1))
    (hs : resolveSeasonArg db.seasons season (some g) = .ok sOpt)
    (hpos : ∀ m ∈ db.matches', 1 ≤ m.id) :
    ∃ m : Match,
      (report db now reporter winner loser game score_w score_l season false).1.matches'
          = db.matches' ++ [m] ∧
      (report db now reporter winner loser game score_w score_l season false).2 = .ok m.id ∧
      (db.matches'.filter (dupePredicate g.id winner.id loser.id now) = [] →
        m.dupe_of = none) ∧
      (∀ d ∈ db.matches'.filter (dupePredicate g.id winner.id loser.id now),
        (∀ d' ∈ db.matches'.filter (dupePredicate g.id winner.id loser.id now), d'.id ≤ d.id) →
        m.dupe_of = some d.id) := by
  obtain ⟨entry, heq⟩ := report_ok_spec db now reporter winner loser game score_w score_l
    season g db1 sOpt hne hg hs
  refine ⟨reportedMatch db now reporter winner loser g score_w score_l sOpt, ?_, ?_, ?_, ?_⟩
  · rw [heq]
  · rw [heq]; rfl
  all_goals
    have hdupe : dupe_match_exists db.matches' now g.id
        (if swapB score_w score_l then loser.id else winner.id)
        (if swapB score_w score_l then winner.id else loser.id) =
        (latestBy (db.matches'.filter (dupePredicate g.id winner.id loser.id now))).map Match.id := by
      cases hsw : swapB score_w score_l
      · simp only [if_false, ite_false, Bool.false_eq_true]
        rfl
      · simp only [if_true, ite_true]
        unfold dupe_match_exists
        rw [List.filter_congr (fun m _ => dupePredicate_symm g.id winner.id loser.id now m)]
  · intro hnil
    unfold reportedMatch
    dsimp only
    rw [hdupe, hnil]
    simp [latestBy]
  · intro d hd hdmax
    obtain ⟨m', hlat, hid⟩ := latestBy_max_val hd hdmax
    unfold reportedMatch
    dsimp only
    rw [hdupe, hlat]
    dsimp only [Option.map]
    have hd1 : 1 ≤ d.id := hpos d (List.mem_filter.mp hd).1
    rw [hid]
    rw [if_neg (by omega)]

/-- Empty store with counters at 1 (SQLite autoincrement starts at 1). -/
def emptyDB : DB := ⟨[], [], [], [], [], 1, 1, 1⟩

/-- The game row created for input "madden". -/
def gW : Game := ⟨1, "Madden", "madden"⟩

/-- Store after creating the game. -/
def dbG : DB := { emptyDB with games := [gW], nextGameId := 2 }

/-- Witness for C2: reporting winner A, loser B with scores 17 and 21
stores winner B, loser A with scores 21 and 17. -/
theorem report_score_autocorrect_witness :
    ∃ m : Match,
      (report emptyDB 100 ⟨3, "R"⟩ ⟨1, "A"⟩ ⟨2, "B"⟩ "madden" (some 17) (some 21) none
          false).1.matches' = emptyDB.matches' ++ [m] ∧
      (report emptyDB 100 ⟨3, "R"⟩ ⟨1, "A"⟩ ⟨2, "B"⟩ "madden" (some 17) (some 21) none
          false).2 = .ok m.id ∧
      ((∃ a b : Int, (some (17 : Int)) = some a ∧ (some (21 : Int)) = some b ∧ a < b) →
        m.winner_id = 2 ∧ m.loser_id = 1 ∧
        m.score_w = some 21 ∧ m.score_l = some 17) ∧
      ((∀ a b : Int, (some (17 : Int)) = some a → (some (21 : Int)) = some b → b ≤ a) →
        m.winner_id = 1 ∧ m.loser_id = 2 ∧
        m.score_w = some 17 ∧ m.score_l = some 21) :=
  report_score_autocorrect emptyDB 100 ⟨3, "R"⟩ ⟨1, "A"⟩ ⟨2, "B"⟩ "madden"
    (some 17) (some 21) none gW dbG none (by decide) (by decide) rfl

/-- Store holding one non-voided match of pair 1-2 in game 1 played at
time 100, reported by user 3. -/
def dbC1 : DB :=
  { users := [⟨3, "R"⟩, ⟨1, "A"⟩, ⟨2, "B"⟩], games := [gW], seasons := [],
    matches' := [⟨1, 1, none, 3, 1, 2, none, none, 100, true, false, none⟩], audit := [],
    nextGameId := 2, nextSeasonId := 1, nextMatchId := 2 }

/-- Witness for C1: a second report of the same unordered pair 299 seconds
later (inside the 5-minute window, pair given in reversed roles) records
`dupe_of` = id of the earlier match, and the insert still happens. -/
theorem report_dupe_detection_witness :
    ∃ m : Match,
      (report dbC1 400 ⟨3, "R"⟩ ⟨2, "B"⟩ ⟨1, "A"⟩ "madden" none none none false).1.matches'
        = dbC1.matches' ++ [m] ∧ m.dupe_of = some 1 := by
  obtain ⟨m, h1, _, _, h4⟩ := report_dupe_detection dbC1 400 ⟨3, "R"⟩ ⟨2, "B"⟩ ⟨1, "A"⟩
    "madden" none none none gW dbC1 none (by decide) (by decide) rfl (by decide)
  refine ⟨m, h1, ?_⟩
  have hmem : (⟨1, 1, none, 3, 1, 2, none, none, 100, true, false, none⟩ : Match) ∈
      dbC1.matches'.filter (dupePredicate gW.id 2 1 400) := by decide
  have := h4 _ hmem (by decide)
  simpa using this

/-- Claim C3: a non-privileged caller's undo targets the most recent
(largest-id) non-voided match among those they reported within the last 10
minutes (`played_at >= now - 10 min`); a privileged caller's undo targets
the globally most recent non-voided match with no reporter or age
restriction; when nothing is eligible the outcome is the normal
"nothing to undo" result and the store is unchanged. -/
theorem undo_correct (db : DB) (now : Int) (admins : List Nat) (caller : Nat) :
    (∀ m ∈ db.matches',
        (m ∈ db.matches'.filter (undoEligibleB now caller (is_admin admins caller)) ↔
          (m.voided = false ∧ (is_admin admins caller = true ∨
            (m.reporter_id = caller ∧ now - 600 ≤ m.played_at))))) ∧
    (db.matches'.filter (undoEligibleB now caller (is_admin admins caller)) = [] →
      undo db now admins caller false = (db, .nothing)) ∧
    (∀ d ∈ db.matches'.filter (undoEligibleB now caller (is_admin admins caller)),
      (∀ d' ∈ db.matches'.filter (undoEligibleB now caller (is_admin admins caller)),
          d'.id ≤ d.id) →
      (undo db now admins caller false).2 = .voided d.id ∧
      (undo db now admins caller false).1.matches' =
        db.matches'.map (fun x => if x.id == d.id then { x with voided := true } else x) ∧
      (undo db now admins caller false).1.audit =
        db.audit ++ [⟨caller, "undo match " ++ toString d.id⟩] ∧
      (undo db now admins caller false).1.users = db.users ∧
      (undo db now admins caller false).1.games = db.games ∧
      (undo db now admins caller false).1.seasons = db.seasons) := by
  refine ⟨?_, ?_, ?_⟩
  · intro m hm
    rw [List.mem_filter]
    simp only [hm, true_and]
    unfold undoEligibleB
    simp [Bool.and_eq_true, Bool.or_eq_true, beq_iff_eq, decide_eq_true_eq]
  · intro hnil
    unfold undo
    dsimp only
    rw [hnil]
    rfl
  · intro d hd hdmax
    obtain ⟨m', hlat, hid⟩ := latestBy_max_val hd hdmax
    unfold undo
    dsimp only
    rw [hlat]
    dsimp only
    rw [if_neg (by simp : ¬ (false = true))]
    rw [hid]
    exact ⟨rfl, rfl, rfl, rfl, rfl, rfl⟩

/-- Store with one non-voided match reported by user 5 at time 401. -/
def dbU : DB :=
  { users := [⟨5, "R"⟩, ⟨1, "A"⟩, ⟨2, "B"⟩], games := [gW], seasons := [],
    matches' := [⟨1, 1, none, 5, 1, 2, none, none, 401, true, false, none⟩], audit := [],
    nextGameId := 2, nextSeasonId := 1, nextMatchId := 2 }

/-- Store with one non-voided match reported by user 5 at time 399. -/
def dbU2 : DB :=
  { users := [⟨5, "R"⟩, ⟨1, "A"⟩, ⟨2, "B"⟩], games := [gW], seasons := [],
    matches' := [⟨1, 1, none, 5, 1, 2, none, none, 399, true, false, none⟩], audit := [],
    nextGameId := 2, nextSeasonId := 1, nextMatchId := 2 }

/-- Witness for C3 at time 1000: the reporter's own 9m59s-old report is
undone; at 10m01s it is no longer eligible for the reporter ("nothing to
undo", store unchanged) but a privileged caller still voids it. -/
theorem undo_correct_witness :
    (undo dbU 1000 [] 5 false).2 = .voided 1 ∧
    undo dbU2 1000 [] 5 false = (dbU2, .nothing) ∧
    (undo dbU2 1000 [9] 9 false).2 = .voided 1 := by
  refine ⟨?_, ?_, ?_⟩
  · exact ((undo_correct dbU 1000 [] 5).2.2
      ⟨1, 1, none, 5, 1, 2, none, none, 401, true, false, none⟩ (by decide) (by decide)).1
  · exact (undo_correct dbU2 1000 [] 5).2.1 (by decide)
  · exact ((undo_correct dbU2 1000 [9] 9).2.2
      ⟨1, 1, none, 5, 1, 2, none, none, 399, true, false, none⟩ (by decide) (by decide)).1

/-- Store for the C4 counterexample: one closed season "Fall" (id 1), one
match of pair 1-2 inside it (id 1), one match of the same pair in no season
(id 2), both non-voided, all in game 1. -/
def db4 : DB :=
  { users := [⟨1, "A"⟩, ⟨2, "B"⟩], games := [gW],
    seasons := [⟨1, "Fall", "closed", none, 0, some 10⟩],
    matches' := [⟨1, 1, some 1, 1, 1, 2, none, none, 0, true, false, none⟩,
      ⟨2, 1, none, 1, 1, 2, none, none, 0, true, false, none⟩],
    audit := [], nextGameId := 2, nextSeasonId := 2, nextMatchId := 3 }

/-- Claim C4 counterexample: `matchup_reset` is called with seasonName
"Fall", yet the match with id 2 — which is not in that season (its
season is null) and was not voided — ends up voided, because "Fall" is
closed, `find_active_season` returns null, and the code silently drops the
season filter.  This falsifies the claim that only matches in the given
season are voided and every other match is left unchanged. -/
theorem matchup_reset_frame_cex :
    ∃ m ∈ (matchup_reset db4 1000 [9] 9 ⟨1, "A"⟩ ⟨2, "B"⟩ "madden" (some "Fall")
        false).1.matches',
      m.id = 2 ∧ m.season_id = none ∧ m.voided = true ∧
      ∃ m0 ∈ db4.matches', m0.id = 2 ∧ m0.season_id = none ∧ m0.voided = false := by
  decide

/-- The unordered-pair condition of `matchup_reset` is symmetric. -/
theorem resetCond_symm (g : Game) (sOpt : Option Season) (u1 u2 : Nat) (m : Match) :
    resetCond g sOpt u2 u1 m = resetCond g sOpt u1 u2 m := by
  unfold resetCond
  rw [Bool.or_comm]

/-- After voiding every match satisfying `resetCond`, the scoped win count
of the pair is zero. -/
theorem pairWins_reset_zero (ms : List Match) (g : Game) (sOpt : Option Season) (a b : Nat) :
    pairWins (ms.map (fun m => if resetCond g sOpt a b m then { m with voided := true } else m))
      g.id (sOpt.map Season.id) a b = 0 := by
  unfold pairWins
  rw [List.length_eq_zero, List.filter_eq_nil]
  intro x hx
  rcases List.mem_map.mp hx with ⟨m, hm, hxm⟩
  by_cases hc : resetCond g sOpt a b m = true
  · rw [if_pos hc] at hxm
    subst hxm
    simp
  · rw [if_neg hc] at hxm
    subst hxm
    intro hpred
    apply hc
    cases sOpt <;>
      simp_all [resetCond, Bool.and_eq_true, beq_iff_eq, Option.map] <;> tauto

/-- Claim C4 (amended): for a privileged `matchup_reset`, with the game and
the season argument resolved exactly as the code resolves them (the season
filter applies only when the name resolves to an active season; otherwise
it is dropped), exactly the non-voided matches of the resolved game whose
unordered pair is the two users — restricted to the resolved season when
one resolved — are voided; every other match row is carried over unchanged,
and the pair's scoped win/loss count afterwards is (0, 0). -/
theorem matchup_reset_amended (db : DB) (now : Int) (admins : List Nat) (caller : Nat)
    (user1 user2 : Member) (game : String) (season : Option String)
    (g : Game) (db1 : DB) (sOpt : Option Season)
    (hadm : is_admin admins caller = true)
    (hg : get_or_create_game db game = (some g, db1))
    (hs : resolveSeasonArg db.seasons season (some g) = .ok sOpt) :
    (matchup_reset db now admins caller user1 user2 game season false).1.matches' =
      db.matches'.map (fun m => if resetCond g sOpt user1.id user2.id m then
        { m with voided := true } else m) ∧
    (matchup_reset db now admins caller user1 user2 game season false).2 =
      .ok ((db.matches'.filter (resetCond g sOpt user1.id user2.id)).length) ∧
    (∀ m ∈ db.matches', resetCond g sOpt user1.id user2.id m = false →
      m ∈ (matchup_reset db now admins caller user1 user2 game season false).1.matches') ∧
    (∀ m ∈ db.matches', resetCond g sOpt user1.id user2.id m = true →
      { m with voided := true } ∈
        (matchup_reset db now admins caller user1 user2 game season false).1.matches') ∧
    pairWins (matchup_reset db now admins caller user1 user2 game season false).1.matches'
      g.id (sOpt.map Season.id) user1.id user2.id = 0 ∧
    pairWins (matchup_reset db now admins caller user1 user2 game season false).1.matches'
      g.id (sOpt.map Season.id) user2.id user1.id = 0 := by
  have hf1 := get_or_create_game_frame db game
  rw [hg] at hf1
  have hf2 := upsertAll_frame db1 [user1, user2]
  have hmm : (upsertAll db1 [user1, user2]).matches' = db.matches' :=
    hf2.2.2.1.trans hf1.2.2.1
  have hseq : db1.seasons = db.seasons := hf1.2.1
  have heval : matchup_reset db now admins caller user1 user2 game season false =
      ({ upsertAll db1 [user1, user2] with
          matches' := db.matches'.map (fun m => if resetCond g sOpt user1.id user2.id m then
            { m with voided := true } else m)
          audit := (upsertAll db1 [user1, user2]).audit ++
            [⟨caller, "matchup_reset " ++ toString user1.id ++ "<->" ++ toString user2.id ++
              " in " ++ g.short_code ++ seasonSuffix sOpt⟩] },
        .ok ((db.matches'.filter (resetCond g sOpt user1.id user2.id)).length)) := by
    unfold matchup_reset
    rw [hadm]
    rw [if_neg (by simp : ¬ ((!true) = true))]
    rw [hg]
    dsimp only
    rw [hseq]
    conv_lhs => rw [hs]
    dsimp only
    rw [if_neg (by simp : ¬ (false = true))]
    rw [hmm]
  refine ⟨by rw [heval], by rw [heval], ?_, ?_, ?_, ?_⟩
  · intro m hm hc
    rw [heval]
    exact List.mem_map.mpr ⟨m, hm, by simp [hc]⟩
  · intro m hm hc
    rw [heval]
    exact List.mem_map.mpr ⟨m, hm, by simp [hc]⟩
  · rw [heval]
    exact pairWins_reset_zero db.matches' g sOpt user1.id user2.id
  · rw [heval]
    have hfun : (fun m => if resetCond g sOpt user1.id user2.id m then
        { m with voided := true } else m) = (fun m => if resetCond g sOpt user2.id user1.id m then
        { m with voided := true } else m) := by
      funext m
      rw [resetCond_symm]
    rw [hfun]
    exact pairWins_reset_zero db.matches' g sOpt user2.id user1.id

/-- Store with an active season "Fall" (id 1), a pair 1-2 match inside it
(id 1) and a pair 1-2 match with no season (id 2), all in game 1. -/
def dbR : DB :=
  { users := [⟨1, "A"⟩, ⟨2, "B"⟩], games := [gW],
    seasons := [⟨1, "Fall", "active", none, 0, none⟩],
    matches' := [⟨1, 1, some 1, 1, 1, 2, none, none, 0, true, false, none⟩,
      ⟨2, 1, none, 1, 1, 2, none, none, 0, true, false, none⟩],
    audit := [], nextGameId := 2, nextSeasonId := 2, nextMatchId := 3 }

/-- Witness for the amended C4: with the season resolving to active season
"Fall", exactly the in-season pair match is voided and the pair's scoped
record drops to 0-0. -/
theorem matchup_reset_amended_witness :
    (matchup_reset dbR 1000 [9] 9 ⟨1, "A"⟩ ⟨2, "B"⟩ "madden" (some "Fall") false).1.matches' =
      dbR.matches'.map (fun m =>
        if resetCond gW (some ⟨1, "Fall", "active", none, 0, none⟩) 1 2 m then
          { m with voided := true } else m) ∧
    pairWins (matchup_reset dbR 1000 [9] 9 ⟨1, "A"⟩ ⟨2, "B"⟩ "madden" (some "Fall")
        false).1.matches'
      gW.id ((some (⟨1, "Fall", "active", none, 0, none⟩ : Season)).map Season.id) 1 2 = 0 := by
  have h := matchup_reset_amended dbR 1000 [9] 9 ⟨1, "A"⟩ ⟨2, "B"⟩ "madden" (some "Fall")
    gW dbR (some ⟨1, "Fall", "active", none, 0, none⟩) (by decide) (by decide) rfl
  exact ⟨h.1, h.2.2.2.2.1⟩

/-- The three possible outcomes of `undo`. -/
theorem undo_cases (db : DB) (now : Int) (admins : List Nat) (caller : Nat) (fail : Bool) :
    undo db now admins caller fail = (db, .nothing) ∨
    undo db now admins caller fail = (db, .storeError) ∨
    ∃ m : Match,
      undo db now admins caller fail =
        ({ db with
            matches' := db.matches'.map
              (fun x => if x.id == m.id then { x with voided := true } else x)
            audit := db.audit ++ [⟨caller, "undo match " ++ toString m.id⟩] }, .voided m.id) := by
  unfold undo
  dsimp only
  cases hlat : latestBy (db.matches'.filter (undoEligibleB now caller (is_admin admins caller))) with
  | none => left; rfl
  | some m =>
    cases fail with
    | true => right; left; rfl
    | false => right; right; exact ⟨m, rfl⟩

/-- The three possible outcomes of `report`. -/
theorem report_cases (db : DB) (now : Int) (reporter winner loser : Member) (game : String)
    (score_w score_l : Option Int) (season : Option String) (fail : Bool) :
    report db now reporter winner loser game score_w score_l season fail =
        (db, .validationError) ∨
    report db now reporter winner loser game score_w score_l season fail = (db, .storeError) ∨
    ∃ (db2 : DB) (m : Match) (entry : AuditLog), db2.matches' = db.matches' ∧
      db2.audit = db.audit ∧
      report db now reporter winner loser game score_w score_l season fail =
        ({ db2 with
            matches' := db2.matches' ++ [m]
            audit := db2.audit ++ [entry]
            nextMatchId := db2.nextMatchId + 1 }, .ok m.id) := by
  unfold report
  split
  · left; rfl
  · cases hg : get_or_create_game db game with
    | mk fst db1 =>
      cases fst with
      | none => right; left; rfl
      | some g =>
        dsimp only
        have hf1 := get_or_create_game_frame db game
        rw [hg] at hf1
        have hf2 := upsertAll_frame db1 [reporter, winner, loser]
        cases hR : getUser (upsertAll db1 [reporter, winner, loser]) reporter.id with
        | none => right; left; rfl
        | some uR =>
          cases hW : getUser (upsertAll db1 [reporter, winner, loser]) winner.id with
          | none => right; left; rfl
          | some uW0 =>
            cases hL : getUser (upsertAll db1 [reporter, winner, loser]) loser.id with
            | none => right; left; rfl
            | some uL0 =>
              dsimp only
              cases hres : resolveSeasonArg (upsertAll db1 [reporter, winner, loser]).seasons
                  season (some g) with
              | error e => right; left; rfl
              | ok sOpt =>
                cases fail with
                | true => right; left; rfl
                | false =>
                  right; right
                  refine ⟨upsertAll db1 [reporter, winner, loser], _, _,
                    hf2.2.2.1.trans hf1.2.2.1, hf2.2.2.2.1.trans hf1.2.2.2.1, rfl⟩

/-- The three possible outcomes of `matchup_reset`. -/
theorem matchup_reset_cases (db : DB) (now : Int) (admins : List Nat) (caller : Nat)
    (user1 user2 : Member) (game : String) (season : Option String) (fail : Bool) :
    matchup_reset db now admins caller user1 user2 game season fail = (db, .notAdmin) ∨
    matchup_reset db now admins caller user1 user2 game season fail = (db, .storeError) ∨
    ∃ (db2 : DB) (g : Game) (sOpt : Option Season) (entry : AuditLog),
      db2.matches' = db.matches' ∧ db2.audit = db.audit ∧
      matchup_reset db now admins caller user1 user2 game season fail =
        ({ db2 with
            matches' := db2.matches'.map (fun m =>
              if resetCond g sOpt user1.id user2.id m then { m with voided := true } else m)
            audit := db2.audit ++ [entry] },
          .ok ((db2.matches'.filter (resetCond g sOpt user1.id user2.id)).length)) := by
  unfold matchup_reset
  split
  · left; rfl
  · cases hg : get_or_create_game db game with
    | mk fst db1 =>
      cases fst with
      | none => right; left; rfl
      | some g =>
        dsimp only
        cases hres : resolveSeasonArg db1.seasons season (some g) with
        | error e => right; left; rfl
        | ok sOpt =>
          cases fail with
          | true => right; left; rfl
          | false =>
            right; right
            have hf1 := get_or_create_game_frame db game
            rw [hg] at hf1
            have hf2 := upsertAll_frame db1 [user1, user2]
            exact ⟨upsertAll db1 [user1, user2], g, sOpt, _,
              hf2.2.2.1.trans hf1.2.2.1, hf2.2.2.2.1.trans hf1.2.2.2.1, rfl⟩

/-- The three possible outcomes of `season_start`. -/
theorem season_start_cases (db : DB) (now : Int) (admins : List Nat) (caller : Nat)
    (name : String) (game : Option String) (fail : Bool) :
    season_start db now admins caller name game fail = (db, .notAdmin) ∨
    season_start db now admins caller name game fail = (db, .storeError) ∨
    ∃ (db1 : DB) (s : Season) (entry : AuditLog),
      db1.seasons = db.seasons ∧ db1.audit = db.audit ∧ db1.matches' = db.matches' ∧
      s.status = "active" ∧ s.ended_at = none ∧
      season_start db now admins caller name game fail =
        ({ db1 with
            seasons := db1.seasons ++ [s]
            audit := db1.audit ++ [entry]
            nextSeasonId := db1.nextSeasonId + 1 }, .ok s.id) := by
  unfold season_start
  split
  · left; rfl
  · dsimp only
    cases fail with
    | true => right; left; rfl
    | false =>
      right; right
      have hfr := resolveGameArg_frame db game
      exact ⟨(resolveGameArg db game).2, _, _, hfr.2.1, hfr.2.2.2.1, hfr.2.2.1, rfl, rfl, rfl⟩

/-- The four possible outcomes of `season_end`. -/
theorem season_end_cases (db : DB) (now : Int) (admins : List Nat) (caller : Nat)
    (name : String) (fail : Bool) :
    season_end db now admins caller name fail = (db, .notAdmin) ∨
    season_end db now admins caller name fail = (db, .notFound) ∨
    season_end db now admins caller name fail = (db, .storeError) ∨
    ∃ (s : Season) (entry : AuditLog),
      season_end db now admins caller name fail =
        ({ db with
            seasons := db.seasons.map (fun x =>
              if x.id == s.id then { x with status := "closed", ended_at := some now } else x)
            audit := db.audit ++ [entry] }, .ok s.id) := by
  unfold season_end
  split
  · left; rfl
  · cases hf : db.seasons.filter (fun s =>
        lowerStr s.name == lowerStr name && s.status == "active") with
    | nil => right; left; rfl
    | cons s rest =>
      cases rest with
      | nil =>
        cases fail with
        | true => right; right; left; rfl
        | false => right; right; right; exact ⟨s, _, rfl⟩
      | cons b r2 => right; right; left; rfl

/-- The four possible outcomes of `season_reset`. -/
theorem season_reset_cases (db : DB) (admins : List Nat) (caller : Nat)
    (name : String) (fail : Bool) :
    season_reset db admins caller name fail = (db, .notAdmin) ∨
    season_reset db admins caller name fail = (db, .notFound) ∨
    season_reset db admins caller name fail = (db, .storeError) ∨
    ∃ (s : Season) (entry : AuditLog),
      season_reset db admins caller name fail =
        ({ db with
            matches' := db.matches'.filter (fun m => !(m.season_id == some s.id))
            audit := db.audit ++ [entry] },
          .ok ((db.matches'.filter (fun m => m.season_id == some s.id)).length)) := by
  unfold season_reset
  split
  · left; rfl
  · cases hf : db.seasons.filter (fun s => lowerStr s.name == lowerStr name) with
    | nil => right; left; rfl
    | cons s rest =>
      cases rest with
      | nil =>
        cases fail with
        | true => right; right; left; rfl
        | false => right; right; right; exact ⟨s, _, rfl⟩
      | cons b r2 => right; right; left; rfl

/-- Claim C8: every mutating operation — report's match insert, undo's
void, matchup_reset's bulk void, season_start's season insert, season_end's
season change, and season_reset's hard delete — is all-or-nothing with its
audit entry.  On success the state change and one audit entry both persist;
on a validation error, a not-found outcome, a "nothing to undo" outcome, a
store error, or an injected commit failure the returned store is exactly
the original: the rollback leaves no partial state and the audit log never
records an action that did not happen. -/
theorem mutations_atomic (db : DB) (now : Int) (reporter winner loser user1 user2 : Member)
    (game : String) (score_w score_l : Option Int) (season : Option String)
    (admins : List Nat) (caller : Nat) (sname : String) (sgame : Option String) (fail : Bool) :
    (match report db now reporter winner loser game score_w score_l season fail with
     | (db', RepRes.ok mid) => ∃ m entry, db'.matches' = db.matches' ++ [m] ∧ m.id = mid ∧
         db'.audit = db.audit ++ [entry]
     | (db', RepRes.validationError) => db' = db
     | (db', RepRes.storeError) => db' = db) ∧
    (match undo db now admins caller fail with
     | (db', UndoRes.voided mid) => ∃ entry, db'.audit = db.audit ++ [entry] ∧
         db'.matches' = db.matches'.map
           (fun x => if x.id == mid then { x with voided := true } else x) ∧
         db'.users = db.users ∧ db'.games = db.games ∧ db'.seasons = db.seasons
     | (db', UndoRes.nothing) => db' = db
     | (db', UndoRes.storeError) => db' = db) ∧
    (match matchup_reset db now admins caller user1 user2 game season fail with
     | (db', ResetRes.ok count) => ∃ (g : Game) (sOpt : Option Season) (entry : AuditLog),
         db'.matches' = db.matches'.map (fun m =>
           if resetCond g sOpt user1.id user2.id m then { m with voided := true } else m) ∧
         count = (db.matches'.filter (resetCond g sOpt user1.id user2.id)).length ∧
         db'.audit = db.audit ++ [entry]
     | (db', ResetRes.notAdmin) => db' = db
     | (db', ResetRes.storeError) => db' = db) ∧
    (match season_start db now admins caller sname sgame fail with
     | (db', SeasonRes.ok sid) => ∃ s entry, db'.seasons = db.seasons ++ [s] ∧ s.id = sid ∧
         s.status = "active" ∧ s.ended_at = none ∧ db'.audit = db.audit ++ [entry] ∧
         db'.matches' = db.matches'
     | (db', SeasonRes.notAdmin) => db' = db
     | (db', SeasonRes.storeError) => db' = db) ∧
    (match season_end db now admins caller sname fail with
     | (db', SeasonEndRes.ok sid) => ∃ entry,
         db'.seasons = db.seasons.map (fun x =>
           if x.id == sid then { x with status := "closed", ended_at := some now } else x) ∧
         db'.audit = db.audit ++ [entry] ∧ db'.matches' = db.matches' ∧ db'.users = db.users
     | (db', SeasonEndRes.notAdmin) => db' = db
     | (db', SeasonEndRes.notFound) => db' = db
     | (db', SeasonEndRes.storeError) => db' = db) ∧
    (match season_reset db admins caller sname fail with
     | (db', SeasonResetRes.ok count) => ∃ (sid : Nat) (entry : AuditLog),
         db'.matches' = db.matches'.filter (fun m => !(m.season_id == some sid)) ∧
         count = (db.matches'.filter (fun m => m.season_id == some sid)).length ∧
         db'.audit = db.audit ++ [entry] ∧ db'.seasons = db.seasons ∧ db'.users = db.users
     | (db', SeasonResetRes.notAdmin) => db' = db
     | (db', SeasonResetRes.notFound) => db' = db
     | (db', SeasonResetRes.storeError) => db' = db) := by
  refine ⟨?_, ?_, ?_, ?_, ?_, ?_⟩
  · rcases report_cases db now reporter winner loser game score_w score_l season fail with
      h | h | ⟨db2, m, entry, h1, h2, h⟩ <;> rw [h]
    exact ⟨m, entry, by rw [h1], rfl, by rw [h2]⟩
  · rcases undo_cases db now admins caller fail with h | h | ⟨m, h⟩ <;> rw [h]
    exact ⟨_, rfl, rfl, rfl, rfl, rfl⟩
  · rcases matchup_reset_cases db now admins caller user1 user2 game season fail with
      h | h | ⟨db2, g, sOpt, entry, h1, h2, h⟩ <;> rw [h]
    exact ⟨g, sOpt, entry, by rw [h1], by rw [h1], by rw [h2]⟩
  · rcases season_start_cases db now admins caller sname sgame fail with
      h | h | ⟨db1, s, entry, h1, h2, hm, h3, h4, h⟩ <;> rw [h]
    exact ⟨s, entry, by rw [h1], rfl, h3, h4, by rw [h2], by rw [hm]⟩
  · rcases season_end_cases db now admins caller sname fail with
      h | h | h | ⟨s, entry, h⟩ <;> rw [h]
    exact ⟨entry, rfl, rfl, rfl, rfl⟩
  · rcases season_reset_cases db admins caller sname fail with
      h | h | h | ⟨s, entry, h⟩ <;> rw [h]
    exact ⟨s.id, entry, rfl, rfl, rfl, rfl, rfl⟩

/-- Claim C9: a record / head-to-head / leaderboard query (all three run
through `record`, which ends in `session.commit()`) that supplies a
non-empty game name resolving to no existing game — no game whose
lowercased short code equals the normalized input and none whose lowercased
name equals the lowercased stripped input — creates and commits a new Game
row with the normalized code and the title-cased name: the read-only query
mutates the persisted store. -/
theorem record_query_creates_game (db : DB) (gs : String) (user vs : Option Member)
    (hne : gs ≠ "")
    (hnocode : ∀ g ∈ db.games, lowerStr g.short_code ≠ normCode (stripStr gs))
    (hnoname : ∀ g ∈ db.games, lowerStr g.name ≠ lowerStr (stripStr gs)) :
    (record_state db (some gs) user vs).games =
      db.games ++ [⟨db.nextGameId, pyTitle (stripStr gs), normCode (stripStr gs)⟩] ∧
    (record_state db (some gs) user vs).games ≠ db.games := by
  have hg : get_or_create_game db gs =
      (some ⟨db.nextGameId, pyTitle (stripStr gs), normCode (stripStr gs)⟩,
        { db with
            games := db.games ++ [⟨db.nextGameId, pyTitle (stripStr gs), normCode (stripStr gs)⟩]
            nextGameId := db.nextGameId + 1 }) := by
    unfold get_or_create_game
    rw [if_neg hne]
    dsimp only
    rw [show List.find? (fun g => lowerStr g.short_code == normCode (stripStr gs)) db.games
        = none from List.find?_eq_none.mpr (fun g hgm => by simp [hnocode g hgm])]
    rw [show List.find? (fun g => lowerStr g.name == lowerStr (stripStr gs)) db.games
        = none from List.find?_eq_none.mpr (fun g hgm => by simp [hnoname g hgm])]
  have hmain : (record_state db (some gs) user vs).games =
      db.games ++ [⟨db.nextGameId, pyTitle (stripStr gs), normCode (stripStr gs)⟩] := by
    unfold record_state resolveGameArg
    dsimp only
    rw [if_pos hne, hg]
    dsimp only
    cases user with
    | none => rfl
    | some u =>
      cases vs with
      | none => exact (upsert_user_frame _ u).1
      | some v => exact (upsertAll_frame _ [u, v]).1
  refine ⟨hmain, ?_⟩
  rw [hmain]
  intro hbad
  have := congrArg List.length hbad
  simp at this

/-- Witness for C9: querying an empty store with game "M a d d e n"
creates and commits the game (code "madden", name "M A D D E N"). -/
theorem record_query_creates_game_witness :
    (record_state emptyDB (some "M a d d e n") none none).games =
      emptyDB.games ++ [⟨emptyDB.nextGameId, pyTitle (stripStr "M a d d e n"),
        normCode (stripStr "M a d d e n")⟩] ∧
    (record_state emptyDB (some "M a d d e n") none none).games ≠ emptyDB.games :=
  record_query_creates_game emptyDB "M a d d e n" none none (by decide)
    (by decide) (by decide)

/-- Claim C10: a privileged `season_start` performs no uniqueness check: it
always succeeds and appends a new Season with status "active" and a null
end timestamp; in particular, when an active season with the same name and
game scope already exists, the store afterwards holds two distinct
simultaneously active seasons with that name and scope. -/
theorem season_start_no_uniqueness (db : DB) (now : Int) (admins : List Nat) (caller : Nat)
    (name : String) (game : Option String)
    (hadm : is_admin admins caller = true)
    (hfresh : ∀ s ∈ db.seasons, s.id < db.nextSeasonId) :
    ∃ gid : Option Nat,
      (season_start db now admins caller name game false).1.seasons =
        db.seasons ++ [⟨db.nextSeasonId, name, "active", gid, now, none⟩] ∧
      (season_start db now admins caller name game false).2 = .ok db.nextSeasonId ∧
      (∀ s0 ∈ db.seasons, s0.status = "active" → s0.name = name → s0.game_id = gid →
        ∃ s1 ∈ (season_start db now admins caller name game false).1.seasons,
          ∃ s2 ∈ (season_start db now admins caller name game false).1.seasons,
            s1 ≠ s2 ∧ s1.status = "active" ∧ s2.status = "active" ∧
            s1.name = name ∧ s2.name = name ∧ s1.game_id = gid ∧ s2.game_id = gid ∧
            s2.ended_at = none) := by
  have hfr := resolveGameArg_frame db game
  have heval : season_start db now admins caller name game false =
      ({ (resolveGameArg db game).2 with
          seasons := db.seasons ++ [⟨db.nextSeasonId, name, "active",
            (resolveGameArg db game).1.map Game.id, now, none⟩]
          audit := (resolveGameArg db game).2.audit ++ [⟨caller, "season_start " ++ name⟩]
          nextSeasonId := db.nextSeasonId + 1 }, .ok db.nextSeasonId) := by
    unfold season_start
    rw [hadm]
    rw [if_neg (by simp : ¬ ((!true) = true))]
    dsimp only
    rw [if_neg (by simp : ¬ (false = true))]
    rw [hfr.2.2.2.2.1]
    rw [hfr.2.1]
  refine ⟨(resolveGameArg db game).1.map Game.id, ?_, ?_, ?_⟩
  · rw [heval]
  · rw [heval]
  · intro s0 hs0 hact hname hgid
    refine ⟨s0, ?_, ⟨db.nextSeasonId, name, "active",
        (resolveGameArg db game).1.map Game.id, now, none⟩, ?_, ?_, hact, rfl,
      hname, rfl, hgid, rfl, rfl⟩
    · rw [heval]
      exact List.mem_append_left _ hs0
    · rw [heval]
      exact List.mem_append_right _ (by simp)
    · intro hbad
      have hlt := hfresh s0 hs0
      rw [hbad] at hlt
      simp at hlt

/-- Store already holding an active cross-game season named "Fall". -/
def dbS : DB :=
  { emptyDB with
      seasons := [⟨1, "Fall", "active", none, 0, none⟩]
      nextSeasonId := 2 }

/-- Witness for C10: starting "Fall" again while an active "Fall" exists
succeeds and leaves two distinct simultaneously active seasons named
"Fall" with the same (null) game scope. -/
theorem season_start_no_uniqueness_witness :
    ∃ gid : Option Nat,
      (season_start dbS 50 [9] 9 "Fall" none false).1.seasons =
        dbS.seasons ++ [⟨dbS.nextSeasonId, "Fall", "active", gid, 50, none⟩] ∧
      (season_start dbS 50 [9] 9 "Fall" none false).2 = .ok dbS.nextSeasonId ∧
      (∀ s0 ∈ dbS.seasons, s0.status = "active" → s0.name = "Fall" → s0.game_id = gid →
        ∃ s1 ∈ (season_start dbS 50 [9] 9 "Fall" none false).1.seasons,
          ∃ s2 ∈ (season_start dbS 50 [9] 9 "Fall" none false).1.seasons,
            s1 ≠ s2 ∧ s1.status = "active" ∧ s2.status = "active" ∧
            s1.name = "Fall" ∧ s2.name = "Fall" ∧ s1.game_id = gid ∧ s2.game_id = gid ∧
            s2.ended_at = none) :=
  season_start_no_uniqueness dbS 50 [9] 9 "Fall" none (by decide) (by decide)
